import Mathlib

/-!
Verification development for the smart-relay request-forwarding engine.

The definitions below are a shallow embedding of the proxy core
(`handleRequest`, `forwardRequest`, `createRequestOptions`,
`handleMissingDestination`, `handleProxyError`, `createErrorResponse`)
together with models of the two Node.js legacy `url` library functions the
core calls (`url.parse` and `url.resolve`).  The parser model follows the
legacy algorithm: the hash-free fast path for origin-form targets, the
protocol pattern, `//` authority recognition, host parsing also for
non-slashed schemes, userinfo stripping, port splitting, the `/` pathname
default for slashed protocols with a host, and a `null` path when neither
pathname nor search is present — in which case `url.resolve(null, ...)`
throws a `TypeError` inside `createRequestOptions`, modelled with
`Except`.  IPv6 bracket hosts, percent-decoding of userinfo and hostname
punycode/validation are not modelled (they do not occur in the claims'
inputs).  Header collections are modelled as association lists with the
JavaScript object semantics used by the source (insertion order, exact-key
spread/delete), and Node's case-insensitive last-write-wins header
serialization is modelled by `getHeaderCI`.
-/

deriving instance DecidableEq for Except

/-- One hexadecimal digit, lowercase, as produced by `JSON.stringify`
escape sequences. -/
def hexDigit (n : Nat) : String :=
  String.mk [Char.ofNat (if n < 10 then 48 + n else 87 + n)]

/-- Escaping of a single character as performed by `JSON.stringify` on the
characters of a string value. -/
def jsonEscapeChar (c : Char) : String :=
  if c == '"' then "\\\""
  else if c == '\\' then "\\\\"
  else if c == '\x08' then "\\b"
  else if c == '\t' then "\\t"
  else if c == '\n' then "\\n"
  else if c == '\x0c' then "\\f"
  else if c == '\r' then "\\r"
  else if c.toNat < 32 then "\\u00" ++ hexDigit (c.toNat / 16) ++ hexDigit (c.toNat % 16)
  else String.mk [c]

/-- String-body escaping of `JSON.stringify`, character by character. -/
def jsonEscapeList : List Char → String
  | [] => ""
  | c :: cs => jsonEscapeChar c ++ jsonEscapeList cs

/-- `JSON.stringify` escaping of a whole string value. -/
def jsonEscapeString (s : String) : String :=
  jsonEscapeList s.toList

/-- `createErrorResponse(code, message)` from the source:
`JSON.stringify({error: {code: code, message: message}})`. -/
def createErrorResponse (code message : String) : String :=
  "\x7b\"error\":\x7b\"code\":\"" ++ jsonEscapeString code ++
    "\",\"message\":\"" ++ jsonEscapeString message ++ "\"\x7d\x7d"

/-- Header collections: association lists in insertion order, exact string
keys, mirroring JavaScript plain objects (Node lowercases inbound header
names before they reach `req.headers`). -/
abbrev Headers := List (String × String)

/-- JavaScript property read `obj[k]` (objects have unique keys, so the
first match is the only match). -/
def objGet (k : String) : Headers → Option String
  | [] => none
  | (k', v) :: rest => if k' == k then some v else objGet k rest

/-- JavaScript object-literal key assignment: `{...obj, k: v}` keeps the
first position of an existing key `k` but takes the last value, otherwise
appends the key at the end. -/
def objSet (k v : String) : Headers → Headers
  | [] => [(k, v)]
  | (k', v') :: rest => if k' == k then (k', v) :: rest else (k', v') :: objSet k v rest

/-- JavaScript `delete obj[k]`: drop the entries whose key is exactly `k`. -/
def objDelete (k : String) : Headers → Headers
  | [] => []
  | (k', v) :: rest => if k' == k then objDelete k rest else (k', v) :: objDelete k rest

/-- ASCII lowercasing of a string, character by character (the semantics of
JavaScript `toLowerCase` and of the legacy parser's lowercasing on the
ASCII header names and URL fragments the relay handles). -/
def lowerStr (s : String) : String :=
  String.mk (s.toList.map Char.toLower)

/-- The effective value of a header under Node's `setHeader` fold over an
options-object header list: case-insensitive name match, last write wins. -/
def getHeaderCI (name : String) : Headers → Option String
  | [] => none
  | (k, v) :: rest =>
    match getHeaderCI name rest with
    | some w => some w
    | none => if lowerStr k == lowerStr name then some v else none

/-- All keys of a header collection are lowercase, as Node guarantees for
`req.headers` of an inbound message. -/
abbrev lowerKeys (hs : Headers) : Prop := ∀ p ∈ hs, lowerStr p.1 = p.1

/-- Characters admitted by the legacy `url.parse` protocol pattern
`/^([a-z0-9.+-]+:)/i`. -/
def protocolChar (c : Char) : Bool :=
  c.isAlpha || c.isDigit || c == '+' || c == '-' || c == '.'

/-- Decimal digits to a number (used for the parsed port). -/
def natOfDigits (ds : List Char) : Nat :=
  ds.foldl (fun n c => n * 10 + (c.toNat - 48)) 0

/-- Split a trailing `:[0-9]*` port suffix off a host-port fragment, the
legacy parser's `portPattern`. -/
def splitPort (hp : List Char) : List Char × Option (List Char) :=
  let r := hp.reverse
  let ds := r.takeWhile (fun c => c.isDigit)
  match r.drop ds.length with
  | ':' :: hostRev => (hostRev.reverse, some ds.reverse)
  | _ => (hp, none)

/-- The protocols the legacy parser knows always carry a `//host`
authority (its `slashedProtocol` table). -/
def slashedProtocols : List String :=
  ["http:", "https:", "ftp:", "gopher:", "file:", "ws:", "wss:"]

/-- The protocols the legacy parser treats as never carrying a host (its
`hostlessProtocol` table). -/
def hostlessProtocols : List String :=
  ["javascript:"]

/-- Characters that terminate the host portion in the legacy parser (its
`nonHostChars`: `% / ? ; #` plus the auto-escaped delimiter characters). -/
def nonHostChar (c : Char) : Bool :=
  c == '%' || c == '/' || c == '?' || c == ';' || c == '#' || c == '\'' ||
  c == '<' || c == '>' || c == '"' || c == '`' || c == ' ' || c == '\r' ||
  c == '\n' || c == '\t'

/-- The legacy pattern `/^\/\/[^@\/]+@[^@\/]+/` that lets a protocol-less
string beginning with `//auth@host` carry an authority. -/
def slashedAuthPattern (cs : List Char) : Bool :=
  match cs with
  | '/' :: '/' :: r =>
    let a := r.takeWhile (fun c => c != '@' && c != '/')
    if a.isEmpty then false
    else
      match r.drop a.length with
      | '@' :: r2 => !(r2.takeWhile (fun c => c != '@' && c != '/')).isEmpty
      | _ => false
  | _ => false

/-- Drop the `userinfo@` prefix the legacy parser strips: the last `@`
before the first of `/`, `?`, `#` bounds the auth section. -/
def dropAuth (cs : List Char) : List Char :=
  let bound := cs.takeWhile (fun c => c != '/' && c != '?' && c != '#')
  if bound.contains '@' then
    (bound.reverse.takeWhile (fun c => c != '@')).reverse ++ cs.drop bound.length
  else cs

/-- The legacy fast path `/^(\/\/?(?!\/)[^?\s]*)(\?[^\s]*)?$/`, attempted
only on hash-free input: a target beginning with `/` or `//` (but not
`///`) splits directly into pathname and search with no protocol or
host. -/
def simplePathParse (cs : List Char) : Option (List Char × List Char) :=
  let shapeOk :=
    match cs with
    | '/' :: '/' :: '/' :: _ => false
    | '/' :: _ => true
    | _ => false
  if shapeOk && cs.all (fun c => !c.isWhitespace) && !cs.contains '#' then
    let p := cs.takeWhile (fun c => c != '?')
    some (p, cs.drop p.length)
  else none

/-- The fields of a legacy `url.parse` result the relay core reads:
`protocol` (lowercased, with trailing colon), `hostname` (lowercased, no
port), `port`, and `path` (pathname plus search; `none` models the legacy
`path: null` of values with neither pathname nor search, such as
scheme-only or fragment-only strings). -/
structure UrlParts where
  protocol : Option String
  hostname : Option String
  port : Option Nat
  path : Option String
  deriving DecidableEq

/-- Model of Node's legacy `url.parse` (with `slashesDenoteHost` false):
the fast path for hash-free origin-form targets; otherwise protocol
extraction, `//` authority recognition (after a protocol, or for a bare
`//auth@host`), host parsing — which the legacy parser also performs for
non-slashed schemes such as `mailto:` — with userinfo dropped at the last
`@` and the host ended by the first non-host character, port splitting,
and hash/query/pathname splitting of the remainder.  The pathname defaults
to `/` only for a slashed protocol with a nonempty host; when neither a
pathname nor a search is present, `path` is `none` (legacy `null`). -/
def urlParse (s : String) : UrlParts :=
  let cs := s.toList
  match simplePathParse cs with
  | some pq =>
    { protocol := none, hostname := none, port := none,
      path := some (String.mk (pq.1 ++ pq.2)) }
  | none =>
    let pre := cs.takeWhile protocolChar
    let hasProto := !pre.isEmpty && (cs.drop pre.length).head? == some ':'
    let proto : Option String :=
      if hasProto then some (lowerStr (String.mk pre) ++ ":") else none
    let rest := if hasProto then cs.drop (pre.length + 1) else cs
    let protoIsHostless :=
      match proto with
      | some p => hostlessProtocols.contains p
      | none => false
    let protoIsSlashed :=
      match proto with
      | some p => slashedProtocols.contains p
      | none => false
    let slashes :=
      (hasProto || slashedAuthPattern rest) &&
        (match rest with | '/' :: '/' :: _ => true | _ => false)
    let rest1 := if slashes && !(hasProto && protoIsHostless) then rest.drop 2 else rest
    let parseHostQ := !protoIsHostless && (slashes || (hasProto && !protoIsSlashed))
    if parseHostQ then
      let rest2 := dropAuth rest1
      let hostPart := rest2.takeWhile (fun c => !nonHostChar c)
      let rest3 := rest2.drop hostPart.length
      let pr := splitPort hostPart
      let port : Option Nat :=
        match pr.2 with
        | some ds => if ds.isEmpty then none else some (natOfDigits ds)
        | none => none
      let beforeHash := rest3.takeWhile (fun c => c != '#')
      let pathCs := beforeHash.takeWhile (fun c => c != '?')
      let searchCs := beforeHash.drop pathCs.length
      let pathCs :=
        if pathCs.isEmpty && protoIsSlashed && !pr.1.isEmpty then ['/'] else pathCs
      { protocol := proto
        hostname := some (lowerStr (String.mk pr.1))
        port := port
        path :=
          if pathCs.isEmpty && searchCs.isEmpty then none
          else some (String.mk (pathCs ++ searchCs)) }
    else
      let beforeHash := rest1.takeWhile (fun c => c != '#')
      { protocol := proto, hostname := none, port := none,
        path :=
          if beforeHash.isEmpty then none
          else some (String.mk beforeHash) }

/-- Split a path-and-query string at the first `?`; the search part keeps
its leading `?`. -/
def splitSearch (s : String) : String × String :=
  let cs := s.toList
  let p := cs.takeWhile (fun c => c != '?')
  (String.mk p, String.mk (cs.drop p.length))

/-- One step of the legacy resolver's right-to-left dot-segment loop:
`.` segments are dropped, `..` segments are dropped and cancel the next
plain segment to the left. -/
def dotStep (seg : String) (acc : List String × Nat) : List String × Nat :=
  if seg == "." then acc
  else if seg == ".." then (acc.1, acc.2 + 1)
  else if acc.2 > 0 then (acc.1, acc.2 - 1)
  else (seg :: acc.1, 0)

/-- The legacy resolver's dot-segment removal over a segment list; the
second component counts `..` segments that escaped to the left. -/
def removeDots (segs : List String) : List String × Nat :=
  segs.foldr dotStep ([], 0)

/-- Split a string at every `/`, keeping empty segments, the behavior of
JavaScript `'...'.split('/')`. -/
def splitSlashAux : List Char → List Char → List String
  | [], acc => [String.mk acc.reverse]
  | c :: cs, acc =>
    if c == '/' then String.mk acc.reverse :: splitSlashAux cs []
    else splitSlashAux cs (c :: acc)

/-- Split a path string at every `/`. -/
def splitSlash (s : String) : List String :=
  splitSlashAux s.toList []

/-- Join segments with `/`, the behavior of JavaScript `segs.join('/')`. -/
def joinSlash : List String → String
  | [] => ""
  | [s] => s
  | s :: rest => s ++ "/" ++ joinSlash rest

/-- Does the string start with `/`? -/
def startsWithSlash (s : String) : Bool :=
  s.toList.head? == some '/'

/-- Does the string end with `/`? -/
def endsWithSlash (s : String) : Bool :=
  s.toList.getLast? == some '/'

/-- Reassemble a resolved segment list the way the legacy resolver does:
restore surplus `..` segments for relative results, force a leading empty
segment for absolute results, and restore a trailing slash. -/
def resolveDots (srcPath : List String) (mustEndAbs : Bool) : String :=
  let hasTrailingSlash :=
    match srcPath.getLast? with
    | some s => s == "." || s == ".." || s == ""
    | none => false
  let pair := removeDots srcPath
  let segs := if mustEndAbs then pair.1 else List.replicate pair.2 ".." ++ pair.1
  let segs := if mustEndAbs && segs.head? != some "" then "" :: segs else segs
  let segs :=
    if hasTrailingSlash && !endsWithSlash (joinSlash segs)
    then segs ++ [""] else segs
  joinSlash segs

/-- Model of Node's legacy `url.resolve(base, ref)` restricted to the
host-less path-and-query strings the relay passes it (a non-null
`parsedUrl.path` as base, the inbound `req.url` as reference): an absolute
reference path replaces the base path, a relative one merges onto the
base's directory, and an empty one keeps the base path, taking the
reference's query when present. -/
def urlResolve (base ref : String) : String :=
  let bp := splitSearch base
  let rp := splitSearch ref
  if startsWithSlash rp.1 then
    resolveDots (splitSlash rp.1) true ++ rp.2
  else if rp.1 != "" then
    let srcSegs := (splitSlash bp.1).dropLast ++ splitSlash rp.1
    resolveDots srcSegs (startsWithSlash bp.1) ++ rp.2
  else if rp.2 != "" then
    bp.1 ++ rp.2
  else
    bp.1 ++ bp.2

/-- The JavaScript exceptions the modelled code can raise:
`ERR_HTTP_HEADERS_SENT` from a second `writeHead`, and the `TypeError`
that `url.resolve(null, ...)` raises when the parsed destination has a
`null` path. -/
inductive JsError
  | headersAlreadySent
  | typeError
  deriving DecidableEq

/-- The fields of an inbound `http.IncomingMessage` the relay core reads:
method, request target (`req.url`, origin form), and the header object
(Node delivers its keys lowercased). -/
structure IncomingMessage where
  method : String
  url : String
  headers : Headers
  deriving DecidableEq

/-- The outbound transport module chosen by `forwardRequest`:
`require('https')` (TLS-capable) or `require('http')`. -/
inductive Protocol
  | http
  | https
  deriving DecidableEq

/-- The options object built by `createRequestOptions` and handed to
`protocol.request`. -/
structure RequestOptions where
  hostname : Option String
  port : Nat
  path : String
  method : String
  headers : Headers
  deriving DecidableEq

/-- `createRequestOptions(parsedUrl, protocol, req)` from the source:
```
const options = {
    hostname: parsedUrl.hostname,
    port: parsedUrl.port || (protocol === https ? 443 : 80),
    path: url.resolve(parsedUrl.path, req.url),
    method: req.method,
    headers: { ...req.headers, 'Host': parsedUrl.hostname }
};
delete options.headers['x-destination-url'];
return options;
```
When `parsedUrl.path` is `null`, `url.resolve` throws a `TypeError` while
the options literal is being evaluated, so no options object is produced
(and the spread of `req.headers`, which comes after the `path` property,
is never evaluated).  When `parsedUrl.hostname` is `null` (never the case
for a destination with an authority), the JavaScript `Host` value would be
`null`; the model writes `""` there, and every claim about the `Host`
header assumes a present hostname. -/
def createRequestOptions (parsedUrl : UrlParts) (protocol : Protocol)
    (req : IncomingMessage) : Except JsError RequestOptions :=
  match parsedUrl.path with
  | none => .error .typeError
  | some basePath =>
    let options : RequestOptions :=
      { hostname := parsedUrl.hostname
        port := parsedUrl.port.getD (if protocol = Protocol.https then 443 else 80)
        path := urlResolve basePath req.url
        method := req.method
        headers := objSet "Host" (parsedUrl.hostname.getD "") req.headers }
    .ok { options with headers := objDelete "x-destination-url" options.headers }

/-- `forwardRequest`'s transport selection:
`parsedUrl.protocol === 'https:' ? https : http`. -/
def chooseProtocol (u : UrlParts) : Protocol :=
  if u.protocol = some "https:" then Protocol.https else Protocol.http

/-- The outbound request spec `forwardRequest` builds for a destination
string: parse it, pick the transport, build the options (or propagate the
`TypeError` of a null-path destination). -/
def forwardOptions (req : IncomingMessage) (destinationUrl : String) :
    Except JsError RequestOptions :=
  createRequestOptions (urlParse destinationUrl) (chooseProtocol (urlParse destinationUrl)) req

/-- The outbound path of the options `forwardRequest` would issue, when
the options construction succeeds. -/
def forwardedPath (req : IncomingMessage) (destinationUrl : String) : Option String :=
  match forwardOptions req destinationUrl with
  | .ok options => some options.path
  | .error _ => none

/-- What one `res.writeHead(status, headers); res.end(body)` (or a piped
response) delivers to the caller. -/
structure Reply where
  status : Nat
  headers : Headers
  body : String
  deriving DecidableEq

/-- An outbound response as observed by `forwardRequest`'s response
callback: status code, headers, and the (streamed) body collected. -/
structure ProxyResponse where
  statusCode : Nat
  headers : Headers
  body : String
  deriving DecidableEq

/-- What the outbound world does with the single proxy request: either a
response arrives, or the transport fails with an error message. -/
inductive OutboundEvent
  | response (proxyRes : ProxyResponse)
  | error (message : String)
  deriving DecidableEq

/-- Body of `handleMissingDestination`: `res.writeHead(400, ...)` plus the
`001` error JSON (the access-log line is a console side effect and is not
modelled). -/
def handleMissingDestinationResponse : Reply :=
  { status := 400
    headers := [("Content-Type", "application/json")]
    body := createErrorResponse "001" "X-Destination-URL header is required." }

/-- Body of `handleProxyError`: `clientRes.writeHead(500, ...)` plus the
`002` error JSON carrying the underlying message. -/
def handleProxyErrorResponse (message : String) : Reply :=
  { status := 500
    headers := [("Content-Type", "application/json")]
    body := createErrorResponse "002" ("Proxy request failed: " ++ message) }

/-- The reply the two callbacks registered by `forwardRequest` produce for
one outbound event: `handleProxyResponse` copies status, headers and body
verbatim; the error listener invokes `handleProxyError`. -/
def proxyReaction : OutboundEvent → Reply
  | .response proxyRes =>
    { status := proxyRes.statusCode, headers := proxyRes.headers, body := proxyRes.body }
  | .error message => handleProxyErrorResponse message

/-- `forwardRequest(clientReq, clientRes, destinationUrl)` given the single
outbound event: the options it issues the request with and the reply the
caller receives, or the `TypeError` escaping from the options
construction. -/
def forwardRequest (req : IncomingMessage) (destinationUrl : String)
    (ev : OutboundEvent) : Except JsError (RequestOptions × Reply) :=
  match forwardOptions req destinationUrl with
  | .ok options => .ok (options, proxyReaction ev)
  | .error e => .error e

/-- Outcome of one inbound request: either the router synthesized the
missing-destination reply without touching the network, or it invoked
`forwardRequest`, which issued one outbound request with the recorded
options. -/
inductive HandleOutcome
  | missingDestination (reply : Reply)
  | forwarded (options : RequestOptions) (reply : Reply)
  deriving DecidableEq

/-- `handleRequest(req, res)` from the source:
```
const destinationUrl = req.headers['x-destination-url'];
if (!destinationUrl) return handleMissingDestination(req, res);
forwardRequest(req, res, destinationUrl);
```
`!destinationUrl` is true exactly when the header is absent or the empty
string; an exception raised inside `forwardRequest` (the null-path
`TypeError`) escapes the handler. -/
def handleRequest (req : IncomingMessage) (ev : OutboundEvent) :
    Except JsError HandleOutcome :=
  match objGet "x-destination-url" req.headers with
  | none => .ok (.missingDestination handleMissingDestinationResponse)
  | some d =>
    if d == "" then .ok (.missingDestination handleMissingDestinationResponse)
    else
      match forwardOptions req d with
      | .ok options => .ok (.forwarded options (proxyReaction ev))
      | .error e => .error e

/-- State of the caller's `http.ServerResponse`: the head written (at most
one: Node raises on a second `writeHead`), the body written, whether
`end`/pipe-end has been reached. -/
structure ServerResponseState where
  head : Option (Nat × Headers)
  body : String
  ended : Bool
  deriving DecidableEq

/-- A fresh caller response, before any write. -/
def freshServerResponse : ServerResponseState :=
  { head := none, body := "", ended := false }

/-- `res.writeHead(status, headers)`: records the head, or raises
`ERR_HTTP_HEADERS_SENT` when a head was already written. -/
def writeHeadS (res : ServerResponseState) (status : Nat) (hs : Headers) :
    Except JsError ServerResponseState :=
  match res.head with
  | none => .ok { res with head := some (status, hs) }
  | some _ => .error .headersAlreadySent

/-- Effect on the caller's response of one outbound event, as handled by
the two callbacks `forwardRequest` registers: a response triggers
`handleProxyResponse` (write the proxied head, pipe the body, end); an
error triggers `handleProxyError` (write the 500 head, write the `002`
JSON, end).  Either head write raises if a head was already written. -/
def applyOutboundEvent (res : ServerResponseState) :
    OutboundEvent → Except JsError ServerResponseState
  | .response proxyRes =>
    match writeHeadS res proxyRes.statusCode proxyRes.headers with
    | .ok res1 => .ok { res1 with body := res1.body ++ proxyRes.body, ended := true }
    | .error e => .error e
  | .error message =>
    match writeHeadS res 500 [("Content-Type", "application/json")] with
    | .ok res1 =>
      .ok { res1 with
              body := res1.body ++ createErrorResponse "002" ("Proxy request failed: " ++ message)
              ended := true }
    | .error e => .error e

/-- Deliver a sequence of outbound events to the handlers in order; an
exception raised inside a handler escapes and stops the exchange. -/
def runOutboundEvents (res : ServerResponseState) :
    List OutboundEvent → Except JsError ServerResponseState
  | [] => .ok res
  | ev :: evs =>
    match applyOutboundEvent res ev with
    | .ok res1 => runOutboundEvents res1 evs
    | .error e => .error e

/-- A store of JavaScript header objects, addressed by reference; used to
make the copy-then-delete discipline of `createRequestOptions` visible. -/
structure JsHeap where
  objs : List Headers
  deriving DecidableEq

/-- Read a list element with a fallback (own recursion, for easy lemmas). -/
def listGetD {α : Type} : List α → Nat → α → α
  | [], _, d => d
  | a :: _, 0, _ => a
  | _ :: l, n + 1, d => listGetD l n d

/-- Dereference a header object. -/
def JsHeap.get (h : JsHeap) (r : Nat) : Headers :=
  listGetD h.objs r []

/-- Allocate a fresh header object, returning its reference. -/
def JsHeap.alloc (h : JsHeap) (v : Headers) : JsHeap × Nat :=
  ({ objs := h.objs ++ [v] }, h.objs.length)

/-- Overwrite the header object behind a reference. -/
def JsHeap.set (h : JsHeap) (r : Nat) (v : Headers) : JsHeap :=
  { objs := h.objs.set r v }

/-- An inbound message whose header object lives in the heap. -/
structure IncomingMessageRef where
  method : String
  url : String
  headersRef : Nat
  deriving DecidableEq

/-- An options object whose header object lives in the heap. -/
structure RequestOptionsRef where
  hostname : Option String
  port : Nat
  path : String
  method : String
  headersRef : Nat
  deriving DecidableEq

/-- `createRequestOptions` with the JavaScript object mutations explicit:
the spread `{...req.headers, 'Host': hostname}` allocates a fresh object,
and `delete options.headers['x-destination-url']` mutates that fresh
object, not the inbound one.  For a null-path destination the `path`
property throws before the spread is evaluated, so the heap is
untouched. -/
def createRequestOptionsRef (h : JsHeap) (parsedUrl : UrlParts) (protocol : Protocol)
    (req : IncomingMessageRef) : Except JsError (JsHeap × RequestOptionsRef) :=
  match parsedUrl.path with
  | none => .error .typeError
  | some basePath =>
    let inbound := h.get req.headersRef
    let alloc1 := h.alloc (objSet "Host" (parsedUrl.hostname.getD "") inbound)
    let h1 := alloc1.1
    let r1 := alloc1.2
    let h2 := h1.set r1 (objDelete "x-destination-url" (h1.get r1))
    .ok (h2,
      { hostname := parsedUrl.hostname
        port := parsedUrl.port.getD (if protocol = Protocol.https then 443 else 80)
        path := urlResolve basePath req.url
        method := req.method
        headersRef := r1 })

/-- Sample inbound request with no destination header. -/
def req1 : IncomingMessage :=
  { method := "GET", url := "/", headers := [("host", "localhost:8080")] }

/-- Sample inbound request for the base-path/query join example. -/
def req2 : IncomingMessage :=
  { method := "GET", url := "/v1/users?x=1",
    headers := [("host", "localhost:8080"), ("x-destination-url", "http://example.com/api")] }

/-- The options the relay builds for `req2`'s destination. -/
def opts2 : RequestOptions :=
  { hostname := some "example.com", port := 80, path := "/v1/users?x=1",
    method := "GET", headers := [("host", "localhost:8080"), ("Host", "example.com")] }

/-- The options the relay builds for destination `http://localhost:9999`
from `req1`. -/
def opts4 : RequestOptions :=
  { hostname := some "localhost", port := 9999, path := "/",
    method := "GET", headers := [("host", "localhost:8080"), ("Host", "localhost")] }

/-- Sample inbound request for the path-less destination example. -/
def req8 : IncomingMessage :=
  { method := "GET", url := "/ping",
    headers := [("host", "localhost:8080"), ("x-destination-url", "https://example.com")] }

/-- The options the relay builds for `req8`'s destination. -/
def opts8 : RequestOptions :=
  { hostname := some "example.com", port := 443, path := "/ping",
    method := "GET", headers := [("host", "localhost:8080"), ("Host", "example.com")] }

/-- Sample inbound request for the explicit-port destination example. -/
def req9 : IncomingMessage :=
  { method := "GET", url := "/",
    headers := [("host", "localhost:8080"), ("x-destination-url", "http://example.com:8081/")] }

/-- The options the relay builds for `req9`'s destination. -/
def opts9 : RequestOptions :=
  { hostname := some "example.com", port := 8081, path := "/",
    method := "GET", headers := [("host", "localhost:8080"), ("Host", "example.com")] }

/-- Sample heap: one header object, belonging to the inbound request. -/
def heap10 : JsHeap :=
  { objs := [[("host", "localhost:8080"), ("x-destination-url", "http://example.com/api")]] }

/-- Sample heap-resident inbound request, pointing at `heap10`'s object. -/
def req10 : IncomingMessageRef :=
  { method := "POST", url := "/v1/users?x=1", headersRef := 0 }

/-- The heap after building the options for `req10`: the inbound object is
untouched and a fresh object holds the forwarded headers. -/
def heap10Out : JsHeap :=
  { objs := [[("host", "localhost:8080"), ("x-destination-url", "http://example.com/api")],
             [("host", "localhost:8080"), ("Host", "example.com")]] }

/-- The heap-resident options built for `req10`. -/
def opts10 : RequestOptionsRef :=
  { hostname := some "example.com", port := 80, path := "/v1/users?x=1",
    method := "POST", headersRef := 1 }

theorem jsonEscapeList_append (a b : List Char) :
    jsonEscapeList (a ++ b) = jsonEscapeList a ++ jsonEscapeList b := by
  induction a with
  | nil => simp [jsonEscapeList]
  | cons c cs ih => simp [jsonEscapeList, ih, String.append_assoc]

theorem jsonEscapeString_append (a b : String) :
    jsonEscapeString (a ++ b) = jsonEscapeString a ++ jsonEscapeString b := by
  unfold jsonEscapeString
  rw [show (a ++ b).toList = a.toList ++ b.toList from String.data_append a b]
  exact jsonEscapeList_append a.toList b.toList

theorem getHeaderCI_append_single (name k v : String) (hs : Headers) :
    getHeaderCI name (hs ++ [(k, v)]) =
      if lowerStr k == lowerStr name then some v else getHeaderCI name hs := by
  induction hs with
  | nil => simp [getHeaderCI]
  | cons p rest ih =>
    obtain ⟨k', v'⟩ := p
    by_cases h : (lowerStr k == lowerStr name) = true <;>
      cases hr : getHeaderCI name rest <;>
        simp_all [getHeaderCI, ih]

theorem objSet_eq_append (k v : String) (hs : Headers)
    (hk : ∀ p ∈ hs, p.1 ≠ k) :
    objSet k v hs = hs ++ [(k, v)] := by
  induction hs with
  | nil => simp [objSet]
  | cons p rest ih =>
    obtain ⟨k', v'⟩ := p
    have hne : k' ≠ k := hk (k', v') (by simp)
    simp only [objSet, beq_iff_eq, if_neg hne, List.cons_append, List.cons.injEq, true_and]
    exact ih (fun q hq => hk q (by simp [hq]))

theorem getHeaderCI_objDelete (name k : String) (hs : Headers)
    (hl : ∀ p ∈ hs, lowerStr p.1 = p.1) :
    getHeaderCI name (objDelete k hs) =
      if lowerStr name == k then none else getHeaderCI name hs := by
  induction hs with
  | nil => simp [objDelete, getHeaderCI]
  | cons p rest ih =>
    obtain ⟨k', v'⟩ := p
    have hk' : lowerStr k' = k' := hl (k', v') (by simp)
    have ihr := ih (fun q hq => hl q (List.mem_cons_of_mem _ hq))
    by_cases hkk : k' = k
    · -- this entry is removed by the delete
      simp only [objDelete, beq_iff_eq, if_pos hkk, ihr]
      by_cases hn : lowerStr name = k
      · simp [hn]
      · have h2 : ¬lowerStr k' = lowerStr name := by
          rw [hk', hkk]
          exact fun h => hn h.symm
        simp only [beq_iff_eq, if_neg hn, getHeaderCI]
        cases hr : getHeaderCI name rest <;> simp [h2]
    · -- this entry survives the delete
      simp only [objDelete, beq_iff_eq, if_neg hkk, getHeaderCI, ihr]
      by_cases hn : lowerStr name = k
      · have h2 : ¬lowerStr k' = k := by
          rw [hk']
          exact hkk
        simp [hn, h2]
      · simp [hn]

theorem objDelete_append (k : String) (l1 l2 : Headers) :
    objDelete k (l1 ++ l2) = objDelete k l1 ++ objDelete k l2 := by
  induction l1 with
  | nil => simp [objDelete]
  | cons p rest ih =>
    obtain ⟨k', v'⟩ := p
    by_cases h : k' = k <;> simp [objDelete, h, ih]

theorem listGetD_append_left {α : Type} (l l' : List α) (i : Nat) (d : α)
    (h : i < l.length) : listGetD (l ++ l') i d = listGetD l i d := by
  induction l generalizing i with
  | nil => exact absurd h (Nat.not_lt_zero i)
  | cons a rest ih =>
    cases i with
    | zero => rfl
    | succ i =>
      have hi : i < rest.length := Nat.lt_of_succ_lt_succ h
      simpa [listGetD] using ih i hi

theorem listGetD_set_ne {α : Type} (l : List α) (i j : Nat) (v d : α)
    (h : i ≠ j) : listGetD (l.set i v) j d = listGetD l j d := by
  induction l generalizing i j with
  | nil => simp [List.set]
  | cons a rest ih =>
    cases i with
    | zero =>
      cases j with
      | zero => exact absurd rfl h
      | succ j => simp [List.set, listGetD]
    | succ i =>
      cases j with
      | zero => simp [List.set, listGetD]
      | succ j =>
        have hij : i ≠ j := fun hc => h (by rw [hc])
        simpa [List.set, listGetD] using ih i j hij

/-- The effective (case-insensitive, last-write-wins) view of a header
collection after the spread-override-delete the source performs, for
lowercase inbound keys: the appended `Host` entry wins any lookup of
`host`, every indicator-header entry is removed, and every other lookup is
unchanged. -/
theorem getHeaderCI_spread_delete (hs : Headers) (hn name : String)
    (hlower : lowerKeys hs) :
    getHeaderCI name (objDelete "x-destination-url" (objSet "Host" hn hs)) =
      (if lowerStr name = "host" then some hn
       else if lowerStr name = "x-destination-url" then none
       else getHeaderCI name hs) := by
  have hHostNotKey : ∀ p ∈ hs, p.1 ≠ "Host" := by
    intro p hp hcontra
    have hlp := hlower p hp
    rw [hcontra] at hlp
    exact absurd hlp (by decide)
  rw [objSet_eq_append "Host" hn hs hHostNotKey, objDelete_append]
  have hHostKept : objDelete "x-destination-url" [("Host", hn)] = [("Host", hn)] := by
    simp [objDelete]
  rw [hHostKept, getHeaderCI_append_single,
      getHeaderCI_objDelete name "x-destination-url" hs hlower]
  rw [show lowerStr "Host" = "host" from by decide]
  by_cases h1 : lowerStr name = "host"
  · simp [h1]
  · have h1' : ¬"host" = lowerStr name := fun hc => h1 hc.symm
    by_cases h2 : lowerStr name = "x-destination-url"
    · simp [h1, h2]
    · simp [h1, h1', h2]

theorem heapSpreadDelete_get_ne (h : JsHeap) (a b : Headers) (i : Nat)
    (hvalid : i < h.objs.length) :
    ((h.alloc a).1.set (h.alloc a).2 b).get i = h.get i := by
  simp only [JsHeap.alloc, JsHeap.set, JsHeap.get]
  rw [listGetD_set_ne _ _ _ _ _ (Nat.ne_of_gt hvalid)]
  exact listGetD_append_left _ _ _ _ hvalid

/-- C1: for every inbound request whose `x-destination-url` header is
absent or the empty string, `handleRequest` — whatever the outbound world
would have done — synthesizes exactly the HTTP 400 reply with the code
`001` JSON body and `Content-Type: application/json`, and takes the
`missingDestination` outcome, so `forwardRequest` is never invoked and no
outbound connection is attempted (and no exception is raised). -/
theorem C1_missing_destination (req : IncomingMessage) (ev : OutboundEvent)
    (h : objGet "x-destination-url" req.headers = none ∨
         objGet "x-destination-url" req.headers = some "") :
    handleRequest req ev = Except.ok (HandleOutcome.missingDestination
      { status := 400
        headers := [("Content-Type", "application/json")]
        body := "\x7b\"error\":\x7b\"code\":\"001\",\"message\":\"X-Destination-URL header is required.\"\x7d\x7d" }) := by
  have hresp : handleMissingDestinationResponse =
      ({ status := 400
         headers := [("Content-Type", "application/json")]
         body := "\x7b\"error\":\x7b\"code\":\"001\",\"message\":\"X-Destination-URL header is required.\"\x7d\x7d" } : Reply) := by
    decide
  rcases h with h | h <;> simp [handleRequest, h, hresp]

/-- Witness for C1 at a concrete header-less request and a concrete
outbound event. -/
theorem C1_missing_destination_witness :
    (objGet "x-destination-url" req1.headers = none ∨
      objGet "x-destination-url" req1.headers = some "") ∧
    handleRequest req1 (OutboundEvent.error "connect ECONNREFUSED") =
      Except.ok (HandleOutcome.missingDestination
        { status := 400
          headers := [("Content-Type", "application/json")]
          body := "\x7b\"error\":\x7b\"code\":\"001\",\"message\":\"X-Destination-URL header is required.\"\x7d\x7d" }) :=
  ⟨Or.inl (by decide),
   C1_missing_destination req1 (OutboundEvent.error "connect ECONNREFUSED") (Or.inl (by decide))⟩

/-- C2 counterexample: for destination `http://example.com/api` and inbound
path `/v1/users?x=1`, the outbound path computed by `createRequestOptions`
is NOT `/api/v1/users?x=1` — the destination's base path does not act as a
prefix. -/
theorem C2_counterexample :
    forwardedPath req2 "http://example.com/api" ≠ some "/api/v1/users?x=1" := by
  decide

/-- C2 (amended): for destination `http://example.com/api` and inbound path
`/v1/users?x=1`, the outbound path computed by `createRequestOptions`
equals `/v1/users?x=1`: under the legacy URL-reference resolution the code
uses, an inbound absolute path replaces the destination's base path rather
than being appended to it. -/
theorem C2_path_resolution :
    forwardedPath req2 "http://example.com/api" = some "/v1/users?x=1" := by
  decide

/-- C3: for every inbound request (with Node's lowercase header keys) and
every destination that parsed to a hostname, whenever the options
construction succeeds, the outbound request keeps the inbound method, and
its effective (case-insensitive, last-write-wins) header collection equals
the inbound one with every `x-destination-url` entry removed and the
`Host` header set to the destination's hostname; in particular any
case-variant lookup of the indicator header among the forwarded headers
yields nothing. -/
theorem C3_forwarded_spec (req : IncomingMessage) (u : UrlParts) (protocol : Protocol)
    (hn name : String) (options : RequestOptions)
    (hhost : u.hostname = some hn)
    (hlower : lowerKeys req.headers)
    (hok : createRequestOptions u protocol req = Except.ok options) :
    options.method = req.method ∧
    getHeaderCI name options.headers =
      (if lowerStr name = "host" then some hn
       else if lowerStr name = "x-destination-url" then none
       else getHeaderCI name req.headers) := by
  cases hp : u.path with
  | none => simp [createRequestOptions, hp] at hok
  | some bp =>
    simp only [createRequestOptions, hp] at hok
    rw [Except.ok.injEq] at hok
    subst hok
    refine ⟨rfl, ?_⟩
    show getHeaderCI name (objDelete "x-destination-url"
        (objSet "Host" (u.hostname.getD "") req.headers)) = _
    rw [hhost, Option.getD_some]
    exact getHeaderCI_spread_delete req.headers hn name hlower

/-- Witness for C3 at the concrete destination `http://example.com/api`
and the indicator header name. -/
theorem C3_forwarded_spec_witness :
    (urlParse "http://example.com/api").hostname = some "example.com" ∧
    lowerKeys req2.headers ∧
    createRequestOptions (urlParse "http://example.com/api") Protocol.http req2 =
      Except.ok opts2 ∧
    (opts2.method = req2.method ∧
      getHeaderCI "x-destination-url" opts2.headers =
        (if lowerStr "x-destination-url" = "host" then some "example.com"
         else if lowerStr "x-destination-url" = "x-destination-url" then none
         else getHeaderCI "x-destination-url" req2.headers)) :=
  ⟨by decide, by decide, by decide,
   C3_forwarded_spec req2 (urlParse "http://example.com/api") Protocol.http "example.com"
     "x-destination-url" opts2 (by decide) (by decide) (by decide)⟩

/-- C4: for every outbound transport failure with message `m` (containing
no character that JSON escaping rewrites), whenever the outbound request
was issued (the options construction succeeded), the caller receives
exactly the HTTP 500 reply with `Content-Type: application/json` and body
`{"error":{"code":"002","message":"Proxy request failed: m"}}`. -/
theorem C4_proxy_error (req : IncomingMessage) (destinationUrl m : String)
    (options : RequestOptions) (reply : Reply)
    (hm : jsonEscapeString m = m)
    (hok : forwardRequest req destinationUrl (OutboundEvent.error m) =
      Except.ok (options, reply)) :
    reply =
      { status := 500
        headers := [("Content-Type", "application/json")]
        body := "\x7b\"error\":\x7b\"code\":\"002\",\"message\":\"Proxy request failed: " ++ m ++ "\"\x7d\x7d" } := by
  have hbody : createErrorResponse "002" ("Proxy request failed: " ++ m) =
      "\x7b\"error\":\x7b\"code\":\"002\",\"message\":\"Proxy request failed: " ++ m ++ "\"\x7d\x7d" := by
    unfold createErrorResponse
    rw [jsonEscapeString_append, hm]
    rw [show jsonEscapeString "002" = "002" from by decide]
    rw [show jsonEscapeString "Proxy request failed: " = "Proxy request failed: " from by decide]
    simp only [← String.append_assoc]
    congr 2
  unfold forwardRequest at hok
  cases hfo : forwardOptions req destinationUrl with
  | error e => rw [hfo] at hok; simp at hok
  | ok o =>
    rw [hfo] at hok
    rw [Except.ok.injEq] at hok
    have hreply : reply = proxyReaction (OutboundEvent.error m) := by
      have hsnd := congrArg Prod.snd hok
      simpa using hsnd.symm
    rw [hreply]
    show handleProxyErrorResponse m = _
    simp only [handleProxyErrorResponse, hbody]

/-- Witness for C4 at the spec's concrete message
`connect ECONNREFUSED`. -/
theorem C4_proxy_error_witness :
    jsonEscapeString "connect ECONNREFUSED" = "connect ECONNREFUSED" ∧
    forwardRequest req1 "http://localhost:9999" (OutboundEvent.error "connect ECONNREFUSED") =
      Except.ok (opts4, handleProxyErrorResponse "connect ECONNREFUSED") ∧
    handleProxyErrorResponse "connect ECONNREFUSED" =
      { status := 500
        headers := [("Content-Type", "application/json")]
        body := "\x7b\"error\":\x7b\"code\":\"002\",\"message\":\"Proxy request failed: " ++
          "connect ECONNREFUSED" ++ "\"\x7d\x7d" } :=
  ⟨by decide, by decide,
   C4_proxy_error req1 "http://localhost:9999" "connect ECONNREFUSED" opts4
     (handleProxyErrorResponse "connect ECONNREFUSED") (by decide) (by decide)⟩

/-- C6 counterexample: if a transport error is delivered after the
outbound response has started (the claim's own event space includes this),
the error handler's second `writeHead` raises `ERR_HTTP_HEADERS_SENT`,
which escapes the request handler — refuting the claim that the caller
always receives exactly one response with no escaping exception. -/
theorem C6_counterexample :
    runOutboundEvents freshServerResponse
      [OutboundEvent.response
        { statusCode := 200, headers := [("content-type", "text/plain")], body := "partial" },
       OutboundEvent.error "read ECONNRESET"] =
      Except.error JsError.headersAlreadySent := rfl

/-- C6 (amended): whenever exactly one terminal outbound event is
delivered — the response, or a transport error before the response starts
— the caller receives exactly one complete reply (the proxied response, or
the synthesized 500 code-`002` reply), never both, and no exception
escapes the handlers; a transport error delivered after the response has
started instead raises `ERR_HTTP_HEADERS_SENT` out of the handler (see the
counterexample). -/
theorem C6_single_terminal_event (ev : OutboundEvent) :
    runOutboundEvents freshServerResponse [ev] =
      Except.ok
        (match ev with
         | OutboundEvent.response r =>
           { head := some (r.statusCode, r.headers), body := r.body, ended := true }
         | OutboundEvent.error m =>
           { head := some (500, [("Content-Type", "application/json")])
             body := createErrorResponse "002" ("Proxy request failed: " ++ m)
             ended := true }) := by
  cases ev with
  | response r =>
    simp [runOutboundEvents, applyOutboundEvent, writeHeadS, freshServerResponse,
      String.empty_append]
  | error m =>
    simp [runOutboundEvents, applyOutboundEvent, writeHeadS, freshServerResponse,
      String.empty_append]

/-- C7: for every destination string, the TLS-capable client is selected
exactly when the parsed scheme is `https` (absent or any other scheme
selects the plain HTTP client), and whenever the options construction
succeeds, the outbound port is the destination's explicit port when
present and otherwise 443 for the TLS client and 80 for the plain one. -/
theorem C7_transport_and_port (destinationUrl : String) (req : IncomingMessage) :
    (chooseProtocol (urlParse destinationUrl) = Protocol.https ↔
      (urlParse destinationUrl).protocol = some "https:") ∧
    (∀ options, forwardOptions req destinationUrl = Except.ok options →
      options.port =
        (match (urlParse destinationUrl).port with
         | some p => p
         | none =>
           if chooseProtocol (urlParse destinationUrl) = Protocol.https then 443 else 80)) := by
  constructor
  · unfold chooseProtocol
    by_cases h : (urlParse destinationUrl).protocol = some "https:" <;> simp [h]
  · intro options hok
    unfold forwardOptions at hok
    cases hp : (urlParse destinationUrl).path with
    | none => simp [createRequestOptions, hp] at hok
    | some bp =>
      simp only [createRequestOptions, hp] at hok
      rw [Except.ok.injEq] at hok
      subst hok
      show (urlParse destinationUrl).port.getD
          (if chooseProtocol (urlParse destinationUrl) = Protocol.https then 443 else 80) = _
      cases hq : (urlParse destinationUrl).port <;> simp [hq]

/-- Witness for C7 at the concrete destination `https://example.com`: the
TLS client is selected and the default port 443 is used. -/
theorem C7_transport_and_port_witness :
    (chooseProtocol (urlParse "https://example.com") = Protocol.https ↔
      (urlParse "https://example.com").protocol = some "https:") ∧
    forwardOptions req8 "https://example.com" = Except.ok opts8 ∧
    opts8.port =
      (match (urlParse "https://example.com").port with
       | some p => p
       | none =>
         if chooseProtocol (urlParse "https://example.com") = Protocol.https then 443 else 80) :=
  ⟨(C7_transport_and_port "https://example.com" req8).1, by decide,
   (C7_transport_and_port "https://example.com" req8).2 opts8 (by decide)⟩

/-- C8: for destination `https://example.com` (whose parsed path defaults
to `/`) and inbound path `/ping`, the outbound path computed by
`createRequestOptions` equals `/ping`. -/
theorem C8_pathless_destination :
    (urlParse "https://example.com").path = some "/" ∧
    forwardedPath req8 "https://example.com" = some "/ping" := by
  refine ⟨by decide, by decide⟩

/-- C9: for every destination parsed to a hostname and an explicit port,
whenever the options construction succeeds, the overridden outbound `Host`
header equals the bare hostname (the parsed hostname never contains the
port), while the port goes only into the connection options. -/
theorem C9_bare_host_header (req : IncomingMessage) (u : UrlParts) (protocol : Protocol)
    (hn : String) (p : Nat) (options : RequestOptions)
    (hhost : u.hostname = some hn)
    (hport : u.port = some p)
    (hlower : lowerKeys req.headers)
    (hok : createRequestOptions u protocol req = Except.ok options) :
    getHeaderCI "host" options.headers = some hn ∧
    options.port = p := by
  cases hp : u.path with
  | none => simp [createRequestOptions, hp] at hok
  | some bp =>
    simp only [createRequestOptions, hp] at hok
    rw [Except.ok.injEq] at hok
    subst hok
    constructor
    · show getHeaderCI "host" (objDelete "x-destination-url"
        (objSet "Host" (u.hostname.getD "") req.headers)) = some hn
      rw [hhost, Option.getD_some]
      rw [getHeaderCI_spread_delete req.headers hn "host" hlower]
      rw [show lowerStr "host" = "host" from by decide]
      simp
    · show u.port.getD (if protocol = Protocol.https then 443 else 80) = p
      rw [hport]
      rfl

/-- Witness for C9 at the concrete destination `http://example.com:8081/`:
the `Host` header is the bare `example.com` and the port option is 8081. -/
theorem C9_bare_host_header_witness :
    (urlParse "http://example.com:8081/").hostname = some "example.com" ∧
    (urlParse "http://example.com:8081/").port = some 8081 ∧
    lowerKeys req9.headers ∧
    createRequestOptions (urlParse "http://example.com:8081/") Protocol.http req9 =
      Except.ok opts9 ∧
    (getHeaderCI "host" opts9.headers = some "example.com" ∧
      opts9.port = 8081) :=
  ⟨by decide, by decide, by decide, by decide,
   C9_bare_host_header req9 (urlParse "http://example.com:8081/") Protocol.http "example.com"
     8081 opts9 (by decide) (by decide) (by decide) (by decide)⟩

/-- C10: building the outbound options leaves the inbound request's header
object unchanged: the spread copies it into a fresh object, the indicator
header is deleted only from the copy, so whenever the options construction
succeeds, the inbound header object still holds `x-destination-url` with
its original value (and the options' header object is a different
object). -/
theorem C10_frame (h : JsHeap) (u : UrlParts) (protocol : Protocol)
    (req : IncomingMessageRef) (v : String) (h' : JsHeap) (options : RequestOptionsRef)
    (hvalid : req.headersRef < h.objs.length)
    (hv : objGet "x-destination-url" (h.get req.headersRef) = some v)
    (hok : createRequestOptionsRef h u protocol req = Except.ok (h', options)) :
    h'.get req.headersRef = h.get req.headersRef ∧
    objGet "x-destination-url" (h'.get req.headersRef) = some v ∧
    options.headersRef ≠ req.headersRef := by
  cases hp : u.path with
  | none => simp [createRequestOptionsRef, hp] at hok
  | some bp =>
    simp only [createRequestOptionsRef, hp] at hok
    rw [Except.ok.injEq, Prod.mk.injEq] at hok
    obtain ⟨hh, ho⟩ := hok
    subst hh
    subst ho
    refine ⟨heapSpreadDelete_get_ne h _ _ _ hvalid, ?_, ?_⟩
    · rw [heapSpreadDelete_get_ne h _ _ _ hvalid]
      exact hv
    · show h.objs.length ≠ req.headersRef
      exact Nat.ne_of_gt hvalid

/-- Witness for C10 at a one-object heap whose inbound header object
carries the indicator header. -/
theorem C10_frame_witness :
    req10.headersRef < heap10.objs.length ∧
    objGet "x-destination-url" (heap10.get req10.headersRef) = some "http://example.com/api" ∧
    createRequestOptionsRef heap10 (urlParse "http://example.com/api") Protocol.http req10 =
      Except.ok (heap10Out, opts10) ∧
    (heap10Out.get req10.headersRef = heap10.get req10.headersRef ∧
      objGet "x-destination-url" (heap10Out.get req10.headersRef) =
        some "http://example.com/api" ∧
      opts10.headersRef ≠ req10.headersRef) :=
  ⟨by decide, by decide, by decide,
   C10_frame heap10 (urlParse "http://example.com/api") Protocol.http req10
     "http://example.com/api" heap10Out opts10 (by decide) (by decide) (by decide)⟩
